import Mathlib

set_option maxRecDepth 8000

/-!
Verification of the calorie-estimator core (src/app.py) against its design
specification.

The development shallowly embeds the Python code:

* `Json` is the universe of values produced by `json.loads` (numbers are
  modelled by `Int`: every concrete payload in the app's contract is
  integer-valued; inputs with float literals simply fail `pyJsonLoads`,
  which only ever weakens success-conditioned theorems, never strengthens
  them).
* `pyJsonLoads` models the fragment of Python's `json.loads` exercised by
  the app: objects, arrays, strings with the common escapes, integers with
  Python's leading-zero rule, `true`/`false`/`null`, with whole-input
  consumption and last-wins duplicate keys.  Constructs it does not model
  (`\uXXXX` escapes, floats, NaN/Infinity) make it return `none`, i.e. it
  is conservative: it never succeeds where Python's parser fails.
* `extract` is the inner `try` of `call_gemini_api` (src/app.py:364-384):
  split at the first `"---"`, slice first `{` to last `}`, parse, attach
  the summary under `summary_text`; on failure retry on the whole text;
  otherwise fall back to `{"text": raw}`.  Its `Option` result models a
  raised exception (`none` would be the uncaught `TypeError` from
  `parsed_json['summary_text'] = ...` on a non-dict, proved unreachable).
* `SState` is the relevant slice of `st.session_state`; the `*Step`
  functions are the stage-handler bodies of `main`.
-/

/-- A value produced by Python's `json.loads`: JSON `null` is Python `None`,
which we also use for Python `None` itself (e.g. `dict.get` misses). -/
inductive Json where
  | null
  | bool (b : Bool)
  | num (n : Int)
  | str (s : String)
  | arr (elems : List Json)
  | obj (members : List (String × Json))

mutual

/-- Structural Boolean equality on `Json` (Python `==` restricted to these
values); kernel-reducible, unlike a derived well-founded instance. -/
def jsonBeq : Json → Json → Bool
  | Json.null, Json.null => true
  | Json.bool a, Json.bool b => a = b
  | Json.num a, Json.num b => a = b
  | Json.str a, Json.str b => a = b
  | Json.arr as, Json.arr bs => jsonListBeq as bs
  | Json.obj as, Json.obj bs => jsonObjBeq as bs
  | _, _ => false

def jsonListBeq : List Json → List Json → Bool
  | [], [] => true
  | a :: t, b :: u => jsonBeq a b && jsonListBeq t u
  | _, _ => false

def jsonObjBeq : List (String × Json) → List (String × Json) → Bool
  | [], [] => true
  | (k, v) :: t, (k2, v2) :: u => k = k2 && jsonBeq v v2 && jsonObjBeq t u
  | _, _ => false

end

/-- Python dict lookup on the association list backing a `Json.obj`
(keys are unique by construction, see `setKey`). -/
def getKey : List (String × Json) → String → Option Json
  | [], _ => none
  | (k, v) :: t, key => if k = key then some v else getKey t key

/-- Python dict item assignment `d[k] = v`: overwrite in place, else append. -/
def setKey : List (String × Json) → String → Json → List (String × Json)
  | [], k, v => [(k, v)]
  | (k0, v0) :: t, k, v => if k0 = k then (k0, v) :: t else (k0, v0) :: setKey t k v

/-- `d.get(key)` returning an `Option` (absence, not Python `None`). -/
def jsonGetOpt (j : Json) (key : String) : Option Json :=
  match j with
  | Json.obj kvs => getKey kvs key
  | _ => none

/-- `d.get(key, default)` on a dict value. -/
def jsonGetD (j : Json) (key : String) (dflt : Json) : Json :=
  (jsonGetOpt j key).getD dflt

/-- `d.get(key)` with Python's `None` (our `Json.null`) on a miss. -/
def jsonGetNone (j : Json) (key : String) : Json :=
  (jsonGetOpt j key).getD Json.null

/-- Python truthiness of these values (`if x:`): empty containers, `0`,
`""`, `False` and `None` are falsy. -/
def pyTruthy : Json → Bool
  | Json.null => false
  | Json.bool b => b
  | Json.num n => n != 0
  | Json.str s => s != ""
  | Json.arr xs => !xs.isEmpty
  | Json.obj kvs => !kvs.isEmpty

def isObjB : Json → Bool
  | Json.obj _ => true
  | _ => false

def isArrB : Json → Bool
  | Json.arr _ => true
  | _ => false

def arrLen : Json → Nat
  | Json.arr xs => xs.length
  | _ => 0

/-! ### Python string primitives (text is `List Char`) -/

/-- First index at which `pat` occurs as a contiguous sublist. -/
def findSub (pat : List Char) : List Char → Option Nat
  | [] => if pat.isPrefixOf ([] : List Char) then some 0 else none
  | c :: t => if pat.isPrefixOf (c :: t) then some 0 else (findSub pat t).map (· + 1)

/-- `needle in haystack` on Python strings. -/
def pyInStr (needle haystack : String) : Bool :=
  (findSub needle.data haystack.data).isSome

/-- `str.lower()` (ASCII part; the hardcoded trigger substring the app
lowers against is plain ASCII). -/
def lowerChar (c : Char) : Char :=
  if 'A' ≤ c ∧ c ≤ 'Z' then Char.ofNat (c.toNat + 32) else c

def lowerStr (s : String) : String :=
  String.mk (s.data.map lowerChar)

/-- First index of character `c`, as Python `str.find`: `-1` when absent. -/
def charFindAux (c : Char) : List Char → Option Nat
  | [] => none
  | x :: t => if x = c then some 0 else (charFindAux c t).map (· + 1)

def charFind (c : Char) (s : List Char) : Int :=
  match charFindAux c s with
  | some i => (i : Int)
  | none => -1

/-- Highest index of character `c`, as Python `str.rfind`: `-1` when absent. -/
def charRfind (c : Char) (s : List Char) : Int :=
  match charFindAux c s.reverse with
  | some i => (s.length : Int) - 1 - (i : Int)
  | none => -1

/-- Python slicing `s[start:stop]`: negative indices count from the end,
then both bounds are clamped into `[0, len]`. -/
def pySlice (s : List Char) (start stop : Int) : List Char :=
  let n : Int := s.length
  let a : Int := if start < 0 then max (start + n) 0 else min start n
  let b : Int := if stop < 0 then max (stop + n) 0 else min stop n
  (s.drop a.toNat).take (b.toNat - a.toNat)

/-- The whitespace stripped by Python `str.strip()` (ASCII part). -/
def isPySpace (c : Char) : Bool :=
  c = ' ' || c = '\t' || c = '\n' || c = '\r' || c = Char.ofNat 11 || c = Char.ofNat 12

def pyStrip (s : List Char) : List Char :=
  ((s.dropWhile isPySpace).reverse.dropWhile isPySpace).reverse

/-- `response_text.split('---', 1)` (src/app.py:365): the part before the
first separator, and the part after it when the separator occurs. -/
def splitOnce (s : List Char) : List Char × Option (List Char) :=
  match findSub ['-', '-', '-'] s with
  | some i => (s.take i, some (s.drop (i + 3)))
  | none => (s, none)

/-! ### The `json.loads` fragment (fuel-based, structural, kernel-reducible) -/

/-- Whitespace skipped between JSON tokens (`json.decoder`: space, tab,
newline, carriage return). -/
def skipWs : List Char → List Char
  | [] => []
  | c :: t => if c = ' ' ∨ c = '\t' ∨ c = '\n' ∨ c = '\r' then skipWs t else c :: t

/-- The two-character escapes of JSON strings; `\uXXXX` is unmodelled, so
inputs using it fail the parse (conservative). -/
def escChar : Char → Option Char
  | '"' => some '"'
  | '\\' => some '\\'
  | '/' => some '/'
  | 'b' => some (Char.ofNat 8)
  | 'f' => some (Char.ofNat 12)
  | 'n' => some '\n'
  | 'r' => some '\r'
  | 't' => some '\t'
  | _ => none

/-- String body after the opening quote; raw control characters are
rejected, as in Python's strict mode. -/
def parseStrAux : List Char → List Char → Option (List Char × List Char)
  | _, [] => none
  | acc, c :: t =>
    if c = '"' then some (acc.reverse, t)
    else if c = '\\' then
      match t with
      | [] => none
      | e :: t2 =>
        match escChar e with
        | some ce => parseStrAux (ce :: acc) t2
        | none => none
    else if c.toNat < 32 then none
    else parseStrAux (c :: acc) t

def parseStrRest (s : List Char) : Option (String × List Char) :=
  (parseStrAux [] s).map (fun p => (String.mk p.1, p.2))

def digitsToNat (ds : List Char) : Nat :=
  ds.foldl (fun a c => a * 10 + (c.toNat - 48)) 0

/-- Integer token with Python's JSON grammar `0 | [1-9][0-9]*`: after a
leading `0` no further digits are consumed, so `01` leaves a stray `1`
that makes the surrounding parse fail, exactly as in Python.  A fraction
or exponent likewise becomes a stray delimiter (floats unmodelled). -/
def parseNum : List Char → Option (Int × List Char)
  | [] => none
  | c :: t =>
    if c = '0' then some (0, t)
    else if c.isDigit then
      some ((digitsToNat ((c :: t).takeWhile Char.isDigit) : Int), (c :: t).dropWhile Char.isDigit)
    else none

/-- Python dicts are built member by member, so duplicate keys resolve
last-wins while keeping the first position. -/
def buildDict (pairs : List (String × Json)) : List (String × Json) :=
  pairs.foldl (fun m kv => setKey m kv.1 kv.2) []

mutual

def parseVal : Nat → List Char → Option (Json × List Char)
  | 0, _ => none
  | Nat.succ n, s =>
    match skipWs s with
    | '{' :: t => (parseMembers n t).map (fun p => (Json.obj (buildDict p.1), p.2))
    | '[' :: t => (parseElems n t).map (fun p => (Json.arr p.1, p.2))
    | '"' :: t => (parseStrRest t).map (fun p => (Json.str p.1, p.2))
    | 't' :: 'r' :: 'u' :: 'e' :: t => some (Json.bool true, t)
    | 'f' :: 'a' :: 'l' :: 's' :: 'e' :: t => some (Json.bool false, t)
    | 'n' :: 'u' :: 'l' :: 'l' :: t => some (Json.null, t)
    | '-' :: t => (parseNum t).map (fun p => (Json.num (-p.1), p.2))
    | c :: t => if c.isDigit then (parseNum (c :: t)).map (fun p => (Json.num p.1, p.2)) else none
    | [] => none

def parseMember : Nat → List Char → Option ((String × Json) × List Char)
  | 0, _ => none
  | Nat.succ n, s =>
    match skipWs s with
    | '"' :: t =>
      match parseStrRest t with
      | some (k, r1) =>
        match skipWs r1 with
        | ':' :: r2 =>
          match parseVal n r2 with
          | some (v, r3) => some ((k, v), r3)
          | none => none
        | _ => none
      | none => none
    | _ => none

def parseMembers : Nat → List Char → Option (List (String × Json) × List Char)
  | 0, _ => none
  | Nat.succ n, s =>
    match skipWs s with
    | '}' :: t => some ([], t)
    | _ =>
      match parseMember n s with
      | some (kv, r) => (parseMembersTail n r).map (fun p => (kv :: p.1, p.2))
      | none => none

def parseMembersTail : Nat → List Char → Option (List (String × Json) × List Char)
  | 0, _ => none
  | Nat.succ n, s =>
    match skipWs s with
    | '}' :: t => some ([], t)
    | ',' :: t =>
      match parseMember n t with
      | some (kv, r) => (parseMembersTail n r).map (fun p => (kv :: p.1, p.2))
      | none => none
    | _ => none

def parseElems : Nat → List Char → Option (List Json × List Char)
  | 0, _ => none
  | Nat.succ n, s =>
    match skipWs s with
    | ']' :: t => some ([], t)
    | _ =>
      match parseVal n s with
      | some (v, r) => (parseElemsTail n r).map (fun p => (v :: p.1, p.2))
      | none => none

def parseElemsTail : Nat → List Char → Option (List Json × List Char)
  | 0, _ => none
  | Nat.succ n, s =>
    match skipWs s with
    | ']' :: t => some ([], t)
    | ',' :: t =>
      match parseVal n t with
      | some (v, r) => (parseElemsTail n r).map (fun p => (v :: p.1, p.2))
      | none => none
    | _ => none

end

/-- `json.loads`: one value, then only trailing whitespace; anything else
is `Extra data` and the call raises, i.e. returns `none` here. -/
def pyJsonLoads (s : List Char) : Option Json :=
  match parseVal (s.length + 1) s with
  | some (v, r) => if skipWs r = [] then some v else none
  | none => none

/-! ### The response extractor (`call_gemini_api`, src/app.py:364-384) -/

/-- `parts[1].strip()` when the separator occurred, else the placeholder
(src/app.py:367). -/
def summaryOf (raw : List Char) : String :=
  match (splitOnce raw).2 with
  | some rest => String.mk (pyStrip rest)
  | none => "No summary provided."

/-- First pass: within `parts[0]`, slice from the first `{` to the last
`}` inclusive (src/app.py:369-371). -/
def firstPassCleaned (raw : List Char) : List Char :=
  pySlice (splitOnce raw).1 (charFind '{' (splitOnce raw).1) (charRfind '}' (splitOnce raw).1 + 1)

def firstPassLoads (raw : List Char) : Option Json :=
  pyJsonLoads (firstPassCleaned raw)

/-- Retry pass: the same slicing heuristic on the whole raw text
(src/app.py:379-382). -/
def secondPassSlice (raw : List Char) : List Char :=
  pySlice raw (charFind '{' raw) (charRfind '}' raw + 1)

def secondPassLoads (raw : List Char) : Option Json :=
  pyJsonLoads (secondPassSlice raw)

/-- The fallback payload `{"text": response_text}` (src/app.py:384). -/
def fallbackJson (raw : List Char) : Json :=
  Json.obj [("text", Json.str (String.mk raw))]

/-- `parsed_json['summary_text'] = summary_text` (src/app.py:374); on a
non-dict this assignment would raise an uncaught `TypeError`, modelled by
`none` and proved unreachable in `extract_isSome`. -/
def setSummary (v : Json) (summary : String) : Option Json :=
  match v with
  | Json.obj kvs => some (Json.obj (setKey kvs "summary_text" (Json.str summary)))
  | _ => none

/-- The inner `try` of `call_gemini_api` (src/app.py:364-384). -/
def extract (raw : List Char) : Option Json :=
  match firstPassLoads raw with
  | some v => setSummary v (summaryOf raw)
  | none =>
    match secondPassLoads raw with
    | some v => some v
    | none => some (fallbackJson raw)

/-! ### Python `in`, `str()` and answer bookkeeping -/

/-- Python `key in j` for the containers the app touches: dict key test,
list membership (string against elements), substring test.  On `None`,
numbers and booleans Python would raise `TypeError`; those operands never
reach the two `in` sites (`extract` only returns dicts, see
`extract_obj`), and are mapped to `false`. -/
def pyInJson (key : String) : Json → Bool
  | Json.obj kvs => kvs.any (fun kv => kv.1 == key)
  | Json.arr xs =>
    xs.any (fun x =>
      match x with
      | Json.str s => s == key
      | _ => false)
  | Json.str s => pyInStr key s
  | _ => false

/-- A single-quote character, used by the f-string of src/app.py:247. -/
def squote : String := String.mk [Char.ofNat 39]

mutual

/-- Python `repr` of these values (string escaping inside `repr` of a
`str` is simplified to bare quotes; no claim depends on it). -/
def pyRepr : Json → String
  | Json.null => "None"
  | Json.bool b => if b then "True" else "False"
  | Json.num n => toString n
  | Json.str s => squote ++ s ++ squote
  | Json.arr xs => "[" ++ pyReprList xs ++ "]"
  | Json.obj kvs => "\x7b" ++ pyReprObj kvs ++ "\x7d"

def pyReprList : List Json → String
  | [] => ""
  | [x] => pyRepr x
  | x :: t => pyRepr x ++ ", " ++ pyReprList t

def pyReprObj : List (String × Json) → String
  | [] => ""
  | [(k, v)] => squote ++ k ++ squote ++ ": " ++ pyRepr v
  | (k, v) :: t => squote ++ k ++ squote ++ ": " ++ pyRepr v ++ ", " ++ pyReprObj t

end

/-- Python `str()` as used by f-string interpolation. -/
def pyStr : Json → String
  | Json.str s => s
  | j => pyRepr j

/-- The answers mapping `st.session_state.user_answers`: Python dict keyed
by the questions' `id` values (arbitrary `Json`). -/
abbrev AnswerMap : Type := List (Json × String)

/-- `user_answers.get(k, dflt)`. -/
def answersGet (ua : AnswerMap) (k : Json) (dflt : String) : String :=
  match List.find? (fun kv => jsonBeq kv.1 k) ua with
  | some kv => kv.2
  | none => dflt

/-! ### The conversation state machine (`main`, src/app.py:41-343) -/

/-- The slice of `st.session_state` the core touches; `none` is an absent
key.  `uploaded_image_data` holds Python `None` or the image bytes. -/
structure SState where
  analysis_stage : Option String
  uploaded_image_data : Option (Option (List Nat))
  api_response : Option Json
  user_answers : Option AnswerMap
  final_breakdown : Option Json

/-- The initialization block (src/app.py:47-52): missing keys get their
defaults, present keys are untouched. -/
def initStep (s : SState) : SState :=
  { s with
    analysis_stage := some (s.analysis_stage.getD "upload"),
    uploaded_image_data := some (s.uploaded_image_data.getD none),
    api_response := some (s.api_response.getD (Json.obj [])) }

/-- The "Start Over" handler (src/app.py:191-194 and 340-343): delete
every session key. -/
def fullReset (_ : SState) : SState :=
  { analysis_stage := none, uploaded_image_data := none, api_response := none,
    user_answers := none, final_breakdown := none }

/-- The session after "Start Over" deleted every key. -/
def emptySession : SState :=
  { analysis_stage := none, uploaded_image_data := none, api_response := none,
    user_answers := none, final_breakdown := none }

/-- A fresh session right after the initialization block. -/
def freshSession : SState :=
  { analysis_stage := some "upload", uploaded_image_data := some none,
    api_response := some (Json.obj []), user_answers := none, final_breakdown := none }

/-- The analyzing-stage handler body (src/app.py:169-174): `resp` is
`call_gemini_api`'s return, `none` being its `return None` failure paths.
`if response_json:` is a truthiness test, so any non-empty dict advances. -/
def analyzingStep (s : SState) (resp : Option Json) : SState :=
  match resp with
  | some j =>
    if pyTruthy j then
      { s with api_response := some j, analysis_stage := some "review_and_answer" }
    else s
  | none => s

/-- The calculating_final handler tail (src/app.py:289-297). -/
def calculatingStep (s : SState) (resp : Option Json) : SState :=
  match resp with
  | some j =>
    if pyTruthy j && pyInJson "breakdown" j then
      { s with final_breakdown := some j, analysis_stage := some "results" }
    else { s with analysis_stage := some "review_and_answer" }
  | none => { s with analysis_stage := some "review_and_answer" }

/-- The condition under which src/app.py:291 advances to results. -/
def respOk (resp : Option Json) : Bool :=
  match resp with
  | some j => pyTruthy j && pyInJson "breakdown" j
  | none => false

/-- `api_response.get("questions", [])` coerced to a list
(src/app.py:178-183). -/
def questionsOf (payload : Json) : List Json :=
  match jsonGetD payload "questions" (Json.arr []) with
  | Json.arr xs => xs
  | _ => []

/-- `api_response.get("estimations", [])` coerced to a list. -/
def estimationsOf (payload : Json) : List Json :=
  match jsonGetD payload "estimations" (Json.arr []) with
  | Json.arr xs => xs
  | _ => []

/-- `[q for q in questions if isinstance(q, dict) and 'id' in q]`
(src/app.py:185): the questions that get displayed. -/
def validQuestions (qs : List Json) : List Json :=
  qs.filter (fun q => isObjB q && pyInJson "id" q)

/-- One line of `answers_str` (src/app.py:246-248). -/
def answerLine (ua : AnswerMap) (q : Json) : String :=
  "- For " ++ squote ++ pyStr (jsonGetD q "text" (Json.str "a question")) ++ squote ++
    ", user answered: " ++ squote ++ answersGet ua (jsonGetNone q "id") "No answer" ++ squote

/-- The question/answer lines folded into the stage-2 prompt
(src/app.py:246-248): every dict in the raw `questions_list` produces a
line, with no 'id' filtering. -/
def answersLines (qs : List Json) (ua : AnswerMap) : List String :=
  (qs.filter (fun q => isObjB q)).map (answerLine ua)

/-- `q.get("options") and isinstance(q["options"], list) and
len(q["options"]) > 0` (src/app.py:221): `.get` misses are falsy `None`. -/
def optionsShown (q : Json) : Bool :=
  match jsonGetOpt q "options" with
  | some v => pyTruthy v && isArrB v && decide (0 < arrLen v)
  | none => false

/-- The recorded answer for one displayed question (src/app.py:221-230):
`selectedOption` is the radio choice, `freeText` the follow-up text input,
`typedText` the option-less text input.  The follow-up branch triggers on
the literal substring "please specify" in the lowered choice — the
question's own `follow_up_on` key is never consulted. -/
def recordedAnswer (q : Json) (selectedOption freeText typedText : String) : String :=
  if optionsShown q then
    if pyInStr "please specify" (lowerStr selectedOption) then
      selectedOption ++ ": " ++ freeText
    else selectedOption
  else typedText

/-! ### The results-stage aggregation (src/app.py:299-338) -/

/-- `total += v` where `total` is an int: Python adds ints and bools
(`True == 1`) and raises `TypeError` on anything else. -/
def addNum (total : Int) (v : Json) : Option Int :=
  match v with
  | Json.num n => some (total + n)
  | Json.bool b => some (total + (if b then 1 else 0))
  | _ => none

/-- One iteration of the totals loop (src/app.py:312-321): `.get` with
default 0 on a dict line, then the four `+=` in source order; a non-dict
line raises `AttributeError` (`none`). -/
def aggLine (t : Int × Int × Int × Int) (item : Json) : Option (Int × Int × Int × Int) :=
  match item with
  | Json.obj _ => do
    let c ← addNum t.1 (jsonGetD item "calories" (Json.num 0))
    let p ← addNum t.2.1 (jsonGetD item "protein_grams" (Json.num 0))
    let cb ← addNum t.2.2.1 (jsonGetD item "carbs_grams" (Json.num 0))
    let f ← addNum t.2.2.2 (jsonGetD item "fat_grams" (Json.num 0))
    some (c, p, cb, f)
  | _ => none

/-- The displayed totals (src/app.py:309-321, 335-338), `none` when the
loop raises. -/
def aggregateTotals (lines : List Json) : Option (Int × Int × Int × Int) :=
  lines.foldlM aggLine (0, 0, 0, 0)

/-- A line the loop tolerates: a dict whose four numeric fields, where
present, are numbers (or bools, which Python treats as ints). -/
def numish : Json → Bool
  | Json.num _ => true
  | Json.bool _ => true
  | _ => false

def goodLine (l : Json) : Bool :=
  isObjB l && numish (jsonGetD l "calories" (Json.num 0)) &&
    numish (jsonGetD l "protein_grams" (Json.num 0)) &&
    numish (jsonGetD l "carbs_grams" (Json.num 0)) &&
    numish (jsonGetD l "fat_grams" (Json.num 0))

/-- The integer Python's `+=` sees in a field value. -/
def valNum : Json → Int
  | Json.num n => n
  | Json.bool b => if b then 1 else 0
  | _ => 0

/-- The value a field contributes to its total. -/
def getNumD (l : Json) (k : String) : Int :=
  valNum (jsonGetD l k (Json.num 0))

/-- `breakdown_data.get("summary_text", "No summary provided.")`
(src/app.py:304); the stored payload is always a dict (`extract_obj`). -/
def resultsSummary (breakdownData : Json) : Json :=
  jsonGetD breakdownData "summary_text" (Json.str "No summary provided.")

/-- No `{` and no `}` anywhere in the text. -/
def braceFree (s : List Char) : Bool :=
  s.all (fun c => !(c == '{') && !(c == '}'))

/-! ### Concrete inputs used by the claim theorems and witnesses -/

/-- Prose prefix of the spec's stage-1 scenario raw text. -/
def pre4 : String := "Sure! ```json\n"

/-- The embedded JSON object of the stage-1 scenario. -/
def obj4 : String := "\x7b\"estimations\":[],\"questions\":[]\x7d"

/-- Fencing suffix of the stage-1 scenario. -/
def post4 : String := "\n```"

/-- The spec's stage-2 scenario raw text: a breakdown object, the
separator, and a trailing summary. -/
def scenario5 : String :=
  "\x7b\"breakdown\":[\x7b\"item\":\"Rice\",\"calories\":200,\"protein_grams\":4,\"carbs_grams\":45,\"fat_grams\":1\x7d]\x7d\n---\nRice is carb-heavy."

/-- The parsed breakdown line of the stage-2 scenario. -/
def riceLine : Json :=
  Json.obj [("item", Json.str "Rice"), ("calories", Json.num 200),
    ("protein_grams", Json.num 4), ("carbs_grams", Json.num 45), ("fat_grams", Json.num 1)]

/-- A raw text whose JSON contains the separator inside a string, so the
first pass fails and the retry pass returns an object that itself has a
`summary_text` key. -/
def raw10 : String := "\x7b\"summary_text\": \"a---b\"\x7d"

/-- A raw text whose payload has a `breakdown` key bound to a number, not
a list. -/
def raw7 : String := "\x7b\"breakdown\": 42\x7d"

/-- A question whose `id` is present but empty. -/
def qEmptyId : Json := Json.obj [("id", Json.str ""), ("text", Json.str "How many?")]

/-- A dict question with no `id` key at all. -/
def qNoId : Json := Json.obj [("text", Json.str "Which oil was used?")]

def payloadEmptyId : Json :=
  Json.obj [("estimations", Json.arr []), ("questions", Json.arr [qEmptyId])]

def payloadNoId : Json :=
  Json.obj [("estimations", Json.arr []), ("questions", Json.arr [qNoId])]

/-- A well-formed question, as in the stage-1 prompt's reference output. -/
def qGood : Json :=
  Json.obj [("id", Json.str "q1"), ("text", Json.str "Was this homemade?"),
    ("options", Json.arr [Json.str "Homemade", Json.str "A Fast-Food Chain"])]

def payloadGood : Json :=
  Json.obj [("estimations", Json.arr []), ("questions", Json.arr [qGood])]

/-- The stage-1 prompt's own deconstructive-question example
(src/app.py:97-104): `follow_up_on` designates the option that is
documented to reveal a free-text field. -/
def qFollow : Json :=
  Json.obj [("id", Json.str "q1"),
    ("text", Json.str "Do you happen to know the individual ingredients used?"),
    ("options", Json.arr [Json.str "Yes, I can list them", Json.str "No, please estimate visually"]),
    ("follow_up_on", Json.str "Yes, I can list them")]

/-- A question with no `follow_up_on` key whose option text happens to
contain the hardcoded trigger substring. -/
def qPlain : Json :=
  Json.obj [("id", Json.str "q2"), ("text", Json.str "Which cut of meat is this?"),
    ("options", Json.arr [Json.str "Chicken breast", Json.str "Other - please specify"])]

/-- A session sitting in the analyzing stage with an uploaded image. -/
def sessionAnalyzing : SState :=
  { analysis_stage := some "analyzing", uploaded_image_data := some (some [255, 216, 255]),
    api_response := some (Json.obj []), user_answers := none, final_breakdown := none }

/-- A session sitting in calculating_final with submitted answers. -/
def sessionCalculating : SState :=
  { analysis_stage := some "calculating_final", uploaded_image_data := some (some [255, 216, 255]),
    api_response := some payloadGood,
    user_answers := some [(Json.str "q1", "Homemade")], final_breakdown := none }

/-! ## Helper lemmas -/

theorem charFindAux_head (c : Char) :
    ∀ (s : List Char) (i : Nat), charFindAux c s = some i → (s.drop i).head? = some c := by
  intro s
  induction s with
  | nil => intro i h; simp [charFindAux] at h
  | cons x t ih =>
    intro i h
    by_cases hx : x = c
    · simp [charFindAux, hx] at h
      subst h; simp [hx]
    · simp [charFindAux, hx] at h
      obtain ⟨j, hj, rfl⟩ := h
      simpa using ih j hj

theorem charFindAux_lt (c : Char) :
    ∀ (s : List Char) (i : Nat), charFindAux c s = some i → i < s.length := by
  intro s
  induction s with
  | nil => intro i h; simp [charFindAux] at h
  | cons x t ih =>
    intro i h
    by_cases hx : x = c
    · simp [charFindAux, hx] at h
      simp only [List.length_cons]
      omega
    · simp [charFindAux, hx] at h
      obtain ⟨j, hj, rfl⟩ := h
      have := ih j hj
      simp only [List.length_cons]
      omega

theorem charFindAux_eq_none (c : Char) :
    ∀ (s : List Char), charFindAux c s = none ↔ ∀ x ∈ s, x ≠ c := by
  intro s
  induction s with
  | nil => simp [charFindAux]
  | cons x t ih =>
    by_cases hx : x = c
    · simp [charFindAux, hx]
    · simp [charFindAux, hx, ih]

theorem charFindAux_append (c : Char) (a b : List Char) (ha : ∀ x ∈ a, x ≠ c) :
    charFindAux c (a ++ b) = (charFindAux c b).map (· + a.length) := by
  induction a with
  | nil => simp
  | cons x t ih =>
    have hx : x ≠ c := ha x (by simp)
    have ht : ∀ y ∈ t, y ≠ c := fun y hy => ha y (by simp [hy])
    simp [charFindAux, hx, ih ht]

theorem pySlice_stop_zero (s : List Char) (a : Int) : pySlice s a 0 = [] := by
  have hn : (0 : Int) ≤ (s.length : Int) := by positivity
  simp [pySlice, min_eq_left hn]

theorem pySlice_natcast (s : List Char) (a b : Nat) (ha : a ≤ s.length) (hb : b ≤ s.length) :
    pySlice s (a : Int) (b : Int) = (s.drop a).take (b - a) := by
  have h1 : ¬((a : Int) < 0) := by omega
  have h2 : ¬((b : Int) < 0) := by omega
  have h3 : min (a : Int) (s.length : Int) = a := by
    rw [min_eq_left]; exact_mod_cast ha
  have h4 : min (b : Int) (s.length : Int) = b := by
    rw [min_eq_left]; exact_mod_cast hb
  simp [pySlice, h1, h2, h3, h4]

theorem head?_take_of_pos {α : Type} (l : List α) (k : Nat) (hk : 0 < k) :
    (l.take k).head? = l.head? := by
  cases k with
  | zero => omega
  | succ m => cases l <;> simp

theorem braceFree_iff (s : List Char) :
    braceFree s = true ↔ ∀ x ∈ s, x ≠ '{' ∧ x ≠ '}' := by
  simp [braceFree, List.all_eq_true]

theorem pyJsonLoads_nil : pyJsonLoads [] = none := rfl

theorem pyJsonLoads_rbrace : pyJsonLoads ['}'] = none := rfl

theorem skipWs_lbrace (t : List Char) : skipWs ('{' :: t) = '{' :: t := by
  simp [skipWs]

theorem parseVal_obj_shape (n : Nat) (s t : List Char) (hs : skipWs s = '{' :: t)
    (v : Json) (r : List Char) (h : parseVal n s = some (v, r)) :
    ∃ kvs, v = Json.obj kvs := by
  cases n with
  | zero => simp [parseVal] at h
  | succ m =>
    have h2 : Option.map (fun p => (Json.obj (buildDict p.1), p.2)) (parseMembers m t) =
        some (v, r) := by
      rw [parseVal, hs] at h
      exact h
    rw [Option.map_eq_some'] at h2
    obtain ⟨p, hp, hpe⟩ := h2
    simp only [Prod.mk.injEq] at hpe
    exact ⟨buildDict p.1, hpe.1.symm⟩

theorem loads_head_obj (s : List Char) (v : Json) (h : pyJsonLoads s = some v)
    (hh : s.head? = some '{') : ∃ kvs, v = Json.obj kvs := by
  cases s with
  | nil => simp at hh
  | cons c t =>
    simp at hh
    subst hh
    rw [pyJsonLoads] at h
    cases hp : parseVal (('{' :: t).length + 1) ('{' :: t) with
    | none => rw [hp] at h; simp at h
    | some p =>
      obtain ⟨w, r⟩ := p
      rw [hp] at h
      have h2 : (if skipWs r = [] then some w else none) = some v := h
      by_cases hr : skipWs r = []
      · rw [if_pos hr] at h2
        have hv : w = v := by injection h2
        subst hv
        exact parseVal_obj_shape _ _ t (skipWs_lbrace t) w r hp
      · rw [if_neg hr] at h2
        exact absurd h2 (by simp)

theorem pySlice_eval (s : List Char) (a b : Int) :
    pySlice s a b =
      (s.drop ((if a < 0 then max (a + s.length) 0 else min a (s.length : Int)).toNat)).take
        ((if b < 0 then max (b + s.length) 0 else min b (s.length : Int)).toNat -
          (if a < 0 then max (a + s.length) 0 else min a (s.length : Int)).toNat) := rfl

theorem slice_from_lbrace (js : List Char) (i : Nat) (e : Int)
    (hf : charFindAux '{' js = some i) :
    (pySlice js (charFind '{' js) e).head? = some '{' ∨ pySlice js (charFind '{' js) e = [] := by
  have hi : i < js.length := charFindAux_lt _ _ _ hf
  have hd : (js.drop i).head? = some '{' := charFindAux_head _ _ _ hf
  have hcf : charFind '{' js = (i : Int) := by simp [charFind, hf]
  rw [hcf, pySlice_eval]
  have hA : (if (i : Int) < 0 then max ((i : Int) + js.length) 0
      else min (i : Int) (js.length : Int)).toNat = i := by
    rw [if_neg (by omega), min_eq_left (by exact_mod_cast le_of_lt hi)]
    simp
  rw [hA]
  rcases Nat.eq_zero_or_pos
      ((if e < 0 then max (e + js.length) 0 else min e (js.length : Int)).toNat - i) with hk | hk
  · right; rw [hk]; simp
  · left; rw [head?_take_of_pos _ _ hk, hd]

theorem slice_no_lbrace (js : List Char) (hf : charFindAux '{' js = none) :
    pySlice js (charFind '{' js) (charRfind '}' js + 1) = [] ∨
    pySlice js (charFind '{' js) (charRfind '}' js + 1) = ['}'] := by
  have hcf : charFind '{' js = -1 := by simp [charFind, hf]
  cases hr : charFindAux '}' js.reverse with
  | none =>
    have hrf : charRfind '}' js = -1 := by simp [charRfind, hr]
    left
    rw [hcf, hrf, show (-1 : Int) + 1 = 0 from by norm_num]
    exact pySlice_stop_zero _ _
  | some k =>
    have hk : k < js.length := by
      have := charFindAux_lt '}' js.reverse k hr
      simpa using this
    have hrf : charRfind '}' js = (js.length : Int) - 1 - k := by simp [charRfind, hr]
    have hlen : 1 ≤ js.length := by omega
    have hA : (if (-1 : Int) < 0 then max ((-1 : Int) + js.length) 0
        else min (-1 : Int) (js.length : Int)).toNat = js.length - 1 := by
      rw [if_pos (by omega), max_eq_left (by omega)]
      omega
    have hB : (if ((js.length : Int) - 1 - k + 1) < 0 then
        max ((js.length : Int) - 1 - k + 1 + js.length) 0
        else min ((js.length : Int) - 1 - k + 1) (js.length : Int)).toNat = js.length - k := by
      rw [if_neg (by omega), min_eq_left (by omega)]
      omega
    rw [hcf, hrf, pySlice_eval, hA, hB]
    by_cases hk0 : k = 0
    · right
      subst hk0
      have hh : js.reverse.head? = some '}' := by
        have := charFindAux_head '}' js.reverse 0 hr
        simpa using this
      obtain ⟨rvt, hrev⟩ : ∃ t, js.reverse = '}' :: t := by
        cases hjr : js.reverse with
        | nil => rw [hjr] at hh; simp at hh
        | cons a t =>
          rw [hjr] at hh; simp at hh
          exact ⟨t, by rw [hh]⟩
      have hjs : js = rvt.reverse ++ ['}'] := by
        have := congrArg List.reverse hrev
        simpa using this
      have hlen2 : js.length = rvt.length + 1 := by
        rw [hjs]; simp
      have hdrop : js.drop (js.length - 1) = ['}'] := by
        rw [hlen2, hjs]
        rw [List.drop_left' (by simp)]
      have hone : js.length - 0 - (js.length - 1) = 1 := by omega
      rw [hdrop, hone]
      rfl
    · left
      have : js.length - k - (js.length - 1) = 0 := by omega
      rw [this]
      simp

theorem slicePass_obj (js : List Char) (v : Json)
    (h : pyJsonLoads (pySlice js (charFind '{' js) (charRfind '}' js + 1)) = some v) :
    ∃ kvs, v = Json.obj kvs := by
  cases hf : charFindAux '{' js with
  | some i =>
    rcases slice_from_lbrace js i (charRfind '}' js + 1) hf with hh | hempty
    · exact loads_head_obj _ v h hh
    · rw [hempty, pyJsonLoads_nil] at h
      exact absurd h (by simp)
  | none =>
    rcases slice_no_lbrace js hf with he | hbr
    · rw [he, pyJsonLoads_nil] at h
      exact absurd h (by simp)
    · rw [hbr, pyJsonLoads_rbrace] at h
      exact absurd h (by simp)

theorem firstPass_obj (raw : List Char) (v : Json) (h : firstPassLoads raw = some v) :
    ∃ kvs, v = Json.obj kvs :=
  slicePass_obj (splitOnce raw).1 v h

theorem secondPass_obj (raw : List Char) (v : Json) (h : secondPassLoads raw = some v) :
    ∃ kvs, v = Json.obj kvs :=
  slicePass_obj raw v h

theorem extract_isSome (raw : List Char) : (extract raw).isSome = true := by
  unfold extract
  cases h1 : firstPassLoads raw with
  | some v =>
    obtain ⟨kvs, rfl⟩ := firstPass_obj raw v h1
    simp [setSummary]
  | none =>
    cases h2 : secondPassLoads raw <;> simp

theorem extract_obj (raw : List Char) (w : Json) (h : extract raw = some w) :
    ∃ kvs, w = Json.obj kvs := by
  unfold extract at h
  cases h1 : firstPassLoads raw with
  | some v =>
    rw [h1] at h
    obtain ⟨kvs, rfl⟩ := firstPass_obj raw v h1
    have h2 : some (Json.obj (setKey kvs "summary_text" (Json.str (summaryOf raw)))) = some w := h
    exact ⟨_, (Option.some.inj h2).symm⟩
  | none =>
    rw [h1] at h
    cases h2 : secondPassLoads raw with
    | some v =>
      rw [h2] at h
      exact secondPass_obj raw w (by rw [h2, Option.some.inj h])
    | none =>
      rw [h2] at h
      exact ⟨_, (Option.some.inj h).symm⟩

theorem noBrace_fallback (raw : List Char) (h : braceFree raw = true) :
    extract raw = some (fallbackJson raw) := by
  have hb := (braceFree_iff raw).mp h
  have hjs : ∀ x ∈ (splitOnce raw).1, x ∈ raw := by
    unfold splitOnce
    cases hfs : findSub ['-', '-', '-'] raw with
    | some i => exact fun x hx => List.take_subset _ _ hx
    | none => exact fun x hx => hx
  have hf1 : charFindAux '{' (splitOnce raw).1 = none :=
    (charFindAux_eq_none _ _).mpr (fun x hx => (hb x (hjs x hx)).1)
  have hr1 : charFindAux '}' ((splitOnce raw).1).reverse = none :=
    (charFindAux_eq_none _ _).mpr (fun x hx => (hb x (hjs x (by simpa using hx))).2)
  have hf2 : charFindAux '{' raw = none :=
    (charFindAux_eq_none _ _).mpr (fun x hx => (hb x hx).1)
  have hr2 : charFindAux '}' raw.reverse = none :=
    (charFindAux_eq_none _ _).mpr (fun x hx => (hb x (by simpa using hx)).2)
  have hc1 : firstPassCleaned raw = [] := by
    unfold firstPassCleaned
    rw [show charFind '{' (splitOnce raw).1 = -1 from by simp [charFind, hf1],
      show charRfind '}' (splitOnce raw).1 = -1 from by simp [charRfind, hr1],
      show (-1 : Int) + 1 = 0 from by norm_num]
    exact pySlice_stop_zero _ _
  have hc2 : secondPassSlice raw = [] := by
    unfold secondPassSlice
    rw [show charFind '{' raw = -1 from by simp [charFind, hf2],
      show charRfind '}' raw = -1 from by simp [charRfind, hr2],
      show (-1 : Int) + 1 = 0 from by norm_num]
    exact pySlice_stop_zero _ _
  have hl1 : firstPassLoads raw = none := by
    unfold firstPassLoads; rw [hc1]; rfl
  have hl2 : secondPassLoads raw = none := by
    unfold secondPassLoads; rw [hc2]; rfl
  unfold extract
  rw [hl1, hl2]

/-! ## Claim theorems -/

/-- C3: for raw text with no brace at all — and, since `extract` is total,
for every input — extraction never raises: it returns the fallback payload
holding the raw text verbatim under the reserved key `text`. -/
theorem c3_extract_total_and_fallback : ∀ raw : List Char,
    (extract raw).isSome = true ∧
    (braceFree raw = true → extract raw = some (fallbackJson raw)) :=
  fun raw => ⟨extract_isSome raw, fun h => noBrace_fallback raw h⟩

/-- C3 witness: a concrete brace-free input degrades to the fallback. -/
theorem c3_witness :
    braceFree "hello".data = true ∧ extract "hello".data = some (fallbackJson "hello".data) :=
  ⟨by decide, (c3_extract_total_and_fallback "hello".data).2 (by decide)⟩

/-- C9: "Start Over" deletes every session key, and the re-initialization
block then yields the fresh upload-stage session, from any state. -/
theorem c9_full_reset : ∀ s : SState,
    fullReset s = emptySession ∧
    initStep (fullReset s) = freshSession ∧
    freshSession.analysis_stage = some "upload" :=
  fun _ => ⟨rfl, rfl, rfl⟩

/-- C2 counterexample: a fallback payload is a non-empty dict, hence
truthy, so `if response_json:` (src/app.py:169) accepts it and the stage
does advance to review_and_answer — contradicting the claim that a
`FallbackPayload` leaves the stage unchanged for a retry. -/
theorem c2_counterexample :
    extract "hello".data = some (fallbackJson "hello".data) ∧
    (analyzingStep sessionAnalyzing (extract "hello".data)).analysis_stage =
      some "review_and_answer" :=
  ⟨rfl, rfl⟩

/-- C2 (amended): when the Model Client reports failure (`None`) the
analyzing stage is left fully unchanged, so the user may retry; but an
extraction fallback is truthy and advances the stage to review_and_answer
with the fallback stored as the payload. -/
theorem c2_failure_no_advance : ∀ (s : SState) (raw : List Char),
    analyzingStep s none = s ∧
    (extract raw = some (fallbackJson raw) →
      (analyzingStep s (extract raw)).analysis_stage = some "review_and_answer" ∧
      (analyzingStep s (extract raw)).api_response = some (fallbackJson raw)) := by
  intro s raw
  refine ⟨rfl, fun h => ?_⟩
  rw [h]
  have ht : pyTruthy (fallbackJson raw) = true := rfl
  simp [analyzingStep, ht]

/-- C2 witness: concrete failure and fallback cases of the amended claim. -/
theorem c2_witness :
    analyzingStep sessionAnalyzing none = sessionAnalyzing ∧
    (analyzingStep sessionAnalyzing (extract "ok then".data)).analysis_stage =
      some "review_and_answer" :=
  ⟨(c2_failure_no_advance sessionAnalyzing "ok then".data).1,
    ((c2_failure_no_advance sessionAnalyzing "ok then".data).2 rfl).1⟩

/-- C7 counterexample: the gate at src/app.py:291 is `"breakdown" in
final_response_json`, a key-presence test; a payload binding `breakdown`
to the number 42 — not a list — still advances to results, contradicting
the claimed "if and only if the payload contains a breakdown list". -/
theorem c7_counterexample :
    extract raw7.data = some (Json.obj [("breakdown", Json.num 42),
      ("summary_text", Json.str "No summary provided.")]) ∧
    (calculatingStep sessionCalculating (extract raw7.data)).analysis_stage = some "results" ∧
    jsonGetOpt (Json.obj [("breakdown", Json.num 42),
      ("summary_text", Json.str "No summary provided.")]) "breakdown" = some (Json.num 42) ∧
    isArrB (Json.num 42) = false :=
  ⟨rfl, rfl, rfl, rfl⟩

/-- C7 (amended): calculating_final advances to results iff the response
is a truthy payload containing the key `breakdown` (of any type);
otherwise the stage falls back to review_and_answer, and in every case the
stored user answers are untouched, as is the previous final breakdown on
the failure path. -/
theorem c7_advance_iff_breakdown_key : ∀ (s : SState) (resp : Option Json),
    ((calculatingStep s resp).analysis_stage = some "results" ↔ respOk resp = true) ∧
    (respOk resp = false →
      (calculatingStep s resp).analysis_stage = some "review_and_answer" ∧
      (calculatingStep s resp).final_breakdown = s.final_breakdown) ∧
    (calculatingStep s resp).user_answers = s.user_answers := by
  intro s resp
  cases resp with
  | none => simp [calculatingStep, respOk]
  | some j =>
    by_cases hc : (pyTruthy j && pyInJson "breakdown" j) = true
    · simp [calculatingStep, respOk, hc]
    · simp only [Bool.not_eq_true] at hc
      simp [calculatingStep, respOk, hc]

/-- C7 witness: the amended condition concretely drives the transition. -/
theorem c7_witness :
    (calculatingStep sessionCalculating (extract raw7.data)).analysis_stage = some "results" :=
  ((c7_advance_iff_breakdown_key sessionCalculating (extract raw7.data)).1).mpr (by decide)

/-- C1 counterexample: src/app.py:185 only tests `'id' in q`, so a
question whose `id` is the empty string is still displayed; and the
stage-2 prompt lines (src/app.py:246-248) are built from the unfiltered
question list, so a dict question with no `id` at all still contributes a
line while being dropped from display. -/
theorem c1_counterexample :
    validQuestions (questionsOf payloadEmptyId) = [qEmptyId] ∧
    jsonGetOpt qEmptyId "id" = some (Json.str "") ∧
    validQuestions (questionsOf payloadNoId) = [] ∧
    (answersLines (questionsOf payloadNoId) []).length = 1 ∧
    pyInJson "id" qNoId = false :=
  ⟨rfl, rfl, rfl, rfl, rfl⟩

/-- C1 (amended): a question is displayed iff it is a dict bearing an
`id` key (its emptiness is not checked), and every dict question — with
or without an `id` — is folded into the stage-2 prompt lines. -/
theorem c1_valid_filter : ∀ (p : Json) (ua : AnswerMap) (q : Json), q ∈ questionsOf p →
    ((isObjB q && pyInJson "id" q) = true → q ∈ validQuestions (questionsOf p)) ∧
    ((isObjB q && pyInJson "id" q) = false → q ∉ validQuestions (questionsOf p)) ∧
    (isObjB q = true → answerLine ua q ∈ answersLines (questionsOf p) ua) := by
  intro p ua q hq
  refine ⟨fun h => List.mem_filter.mpr ⟨hq, h⟩,
    fun h hmem => absurd ((List.mem_filter.mp hmem).2) (by simp [h]),
    fun h => List.mem_map.mpr ⟨q, List.mem_filter.mpr ⟨hq, h⟩, rfl⟩⟩

/-- C1 witness: a well-formed question is displayed and contributes a
stage-2 line. -/
theorem c1_witness :
    qGood ∈ validQuestions (questionsOf payloadGood) ∧
    answerLine [] qGood ∈ answersLines (questionsOf payloadGood) [] := by
  have hmem : qGood ∈ questionsOf payloadGood := List.mem_singleton.mpr rfl
  have h := c1_valid_filter payloadGood [] qGood hmem
  exact ⟨h.1 (by decide), h.2.2 (by decide)⟩

/-- C8: code bug.  The stage-1 prompt (src/app.py:95) documents
`follow_up_on` as "the exact option text that triggers a text input box",
but the widget code (src/app.py:223) never reads that key: it reveals the
free-text field only when the chosen option contains the substring
"please specify".  Selecting the designated trigger option of the
prompt's own example therefore records the option alone, not
`"option: free-text"`; conversely any option containing the substring
triggers the field with no designation at all. -/
theorem c8_follow_up_ignored :
    jsonGetOpt qFollow "follow_up_on" = some (Json.str "Yes, I can list them") ∧
    optionsShown qFollow = true ∧
    recordedAnswer qFollow "Yes, I can list them" "roughly 300g of raw chicken" "" =
      "Yes, I can list them" ∧
    jsonGetOpt qPlain "follow_up_on" = none ∧
    recordedAnswer qPlain "Other - please specify" "lamb shoulder" "" =
      "Other - please specify: lamb shoulder" :=
  ⟨rfl, rfl, by decide, rfl, by decide⟩

theorem numish_cases (v : Json) (h : numish v = true) :
    (∃ n, v = Json.num n) ∨ (∃ b, v = Json.bool b) := by
  cases v with
  | null => simp [numish] at h
  | bool b => exact Or.inr ⟨b, rfl⟩
  | num n => exact Or.inl ⟨n, rfl⟩
  | str s => simp [numish] at h
  | arr xs => simp [numish] at h
  | obj kvs => simp [numish] at h

theorem addNum_of_numish (t : Int) (v : Json) (h : numish v = true) :
    addNum t v = some (t + valNum v) := by
  rcases numish_cases v h with ⟨n, rfl⟩ | ⟨b, rfl⟩ <;> rfl

theorem aggLine_good (t : Int × Int × Int × Int) (l : Json) (h : goodLine l = true) :
    aggLine t l = some (t.1 + getNumD l "calories", t.2.1 + getNumD l "protein_grams",
      t.2.2.1 + getNumD l "carbs_grams", t.2.2.2 + getNumD l "fat_grams") := by
  simp only [goodLine, Bool.and_eq_true] at h
  obtain ⟨⟨⟨⟨hobj, h1⟩, h2⟩, h3⟩, h4⟩ := h
  obtain ⟨kvs, rfl⟩ : ∃ kvs, l = Json.obj kvs := by
    cases l with
    | obj kvs => exact ⟨kvs, rfl⟩
    | null => simp [isObjB] at hobj
    | bool b => simp [isObjB] at hobj
    | num n => simp [isObjB] at hobj
    | str s => simp [isObjB] at hobj
    | arr xs => simp [isObjB] at hobj
  simp [aggLine, addNum_of_numish _ _ h1, addNum_of_numish _ _ h2,
    addNum_of_numish _ _ h3, addNum_of_numish _ _ h4, getNumD]

theorem foldlM_agg (lines : List Json) : ∀ t : Int × Int × Int × Int,
    (∀ l ∈ lines, goodLine l = true) →
    List.foldlM aggLine t lines = some
      (t.1 + (lines.map (fun l => getNumD l "calories")).sum,
        t.2.1 + (lines.map (fun l => getNumD l "protein_grams")).sum,
        t.2.2.1 + (lines.map (fun l => getNumD l "carbs_grams")).sum,
        t.2.2.2 + (lines.map (fun l => getNumD l "fat_grams")).sum) := by
  induction lines with
  | nil => intro t h; simp
  | cons x xs ih =>
    intro t h
    have hx := h x (by simp)
    have hxs : ∀ l ∈ xs, goodLine l = true := fun l hl => h l (by simp [hl])
    rw [List.foldlM_cons, aggLine_good t x hx]
    show List.foldlM aggLine _ xs = _
    rw [ih _ hxs]
    simp [add_assoc]

/-- C6 counterexample: a line that is not a dict makes the totals loop
raise (`item.get` on a non-dict is an `AttributeError`), so a single
malformed line does invalidate the whole report. -/
theorem c6_counterexample :
    aggregateTotals [riceLine, Json.str "oops"] = none ∧
    aggregateTotals [riceLine] = some (200, 4, 45, 1) ∧
    isObjB (Json.str "oops") = false :=
  ⟨rfl, rfl, rfl⟩

/-- C6 (amended): when every line is a dict whose four numeric fields,
where present, are numbers (Python bools included), the displayed totals
are exactly the field-wise sums with missing fields contributing zero; a
line that is not a dict, or a non-numeric field value, raises instead and
loses the report. -/
theorem c6_totals_are_sums : ∀ lines : List Json,
    (∀ l ∈ lines, goodLine l = true) →
    aggregateTotals lines = some
      ((lines.map (fun l => getNumD l "calories")).sum,
        (lines.map (fun l => getNumD l "protein_grams")).sum,
        (lines.map (fun l => getNumD l "carbs_grams")).sum,
        (lines.map (fun l => getNumD l "fat_grams")).sum) := by
  intro lines h
  have h2 := foldlM_agg lines (0, 0, 0, 0) h
  simpa [aggregateTotals] using h2

/-- C6 witness: a dict line with every numeric field missing contributes
zeros without failing the aggregation. -/
theorem c6_witness :
    aggregateTotals [riceLine, Json.obj [("item", Json.str "Salt")]] = some (200, 4, 45, 1) :=
  (c6_totals_are_sums [riceLine, Json.obj [("item", Json.str "Salt")]] (by decide)).trans
    (by decide)

/-- C5: when trailing text is handled, the raw text is split at the first
`"---"`; on first-pass parse success the trailing segment, stripped, is
attached as the summary, and an absent separator yields the fixed
placeholder; the spec's stage-2 scenario produces the one-line breakdown
with summary "Rice is carb-heavy.". -/
theorem c5_split_and_summary :
    (∀ (raw : List Char) (kvs : List (String × Json)),
      firstPassLoads raw = some (Json.obj kvs) →
      extract raw = some (Json.obj (setKey kvs "summary_text" (Json.str (summaryOf raw)))) ∧
      (∀ i, findSub ['-', '-', '-'] raw = some i →
        summaryOf raw = String.mk (pyStrip (raw.drop (i + 3)))) ∧
      (findSub ['-', '-', '-'] raw = none → summaryOf raw = "No summary provided.")) ∧
    extract scenario5.data = some (Json.obj [("breakdown", Json.arr [riceLine]),
      ("summary_text", Json.str "Rice is carb-heavy.")]) := by
  constructor
  · intro raw kvs h
    refine ⟨?_, ?_, ?_⟩
    · unfold extract
      rw [h]
      rfl
    · intro i hi
      unfold summaryOf splitOnce
      rw [hi]
    · intro hn
      unfold summaryOf splitOnce
      rw [hn]
  · rfl

/-- C5 witness: the general branch applied to the scenario text, whose
separator sits at index 96. -/
theorem c5_witness :
    extract scenario5.data = some (Json.obj (setKey [("breakdown", Json.arr [riceLine])]
      "summary_text" (Json.str (summaryOf scenario5.data)))) ∧
    summaryOf scenario5.data = String.mk (pyStrip (scenario5.data.drop (96 + 3))) :=
  ⟨(c5_split_and_summary.1 scenario5.data [("breakdown", Json.arr [riceLine])] rfl).1,
    (c5_split_and_summary.1 scenario5.data [("breakdown", Json.arr [riceLine])] rfl).2.1 96 rfl⟩

theorem setKey_any (kvs : List (String × Json)) (k : String) (v : Json) :
    (setKey kvs k v).any (fun kv => kv.1 == k) = true := by
  induction kvs with
  | nil => simp [setKey]
  | cons kv t ih =>
    obtain ⟨k0, v0⟩ := kv
    by_cases hk : k0 = k
    · simp [setKey, hk]
    · simp [setKey, hk, ih]

theorem getKey_none_of_forall (kvs : List (String × Json)) (k : String)
    (h : ∀ kv ∈ kvs, kv.1 ≠ k) : getKey kvs k = none := by
  induction kvs with
  | nil => rfl
  | cons kv t ih =>
    obtain ⟨k0, v0⟩ := kv
    have h0 : k0 ≠ k := h (k0, v0) (by simp)
    have ht : ∀ kv ∈ t, kv.1 ≠ k := fun kv hkv => h kv (by simp [hkv])
    simp [getKey, h0, ih ht]

/-- C10 counterexample: when the separator occurs inside a JSON string,
the first pass fails but the retry pass can succeed with an object that
itself carries a `summary_text` key — so a retry-recovered payload can
carry the reserved key, contradicting the claimed "if and only if". -/
theorem c10_counterexample :
    firstPassLoads raw10.data = none ∧
    secondPassLoads raw10.data = some (Json.obj [("summary_text", Json.str "a---b")]) ∧
    extract raw10.data = some (Json.obj [("summary_text", Json.str "a---b")]) ∧
    pyInJson "summary_text" (Json.obj [("summary_text", Json.str "a---b")]) = true :=
  ⟨rfl, rfl, rfl, rfl⟩

/-- C10 (amended): first-pass success always attaches `summary_text`
(stage-1 included); the fallback payload never carries it; a retry-pass
payload is returned verbatim, so it carries the key exactly when the
parsed object itself does; and whenever the key is absent the results
stage shows the placeholder. -/
theorem c10_summary_key_provenance : ∀ (raw : List Char) (w : Json), extract raw = some w →
    ((firstPassLoads raw).isSome = true → pyInJson "summary_text" w = true) ∧
    (firstPassLoads raw = none →
      (secondPassLoads raw = none → w = fallbackJson raw ∧
        pyInJson "summary_text" w = false) ∧
      (∀ v, secondPassLoads raw = some v → w = v)) ∧
    (pyInJson "summary_text" w = false →
      resultsSummary w = Json.str "No summary provided.") := by
  intro raw w hw
  refine ⟨?_, ?_, ?_⟩
  · intro h1
    obtain ⟨v, hv⟩ := Option.isSome_iff_exists.mp h1
    obtain ⟨kvs, rfl⟩ := firstPass_obj raw v hv
    unfold extract at hw
    rw [hv] at hw
    have hw2 : some (Json.obj (setKey kvs "summary_text" (Json.str (summaryOf raw)))) =
        some w := hw
    rw [← Option.some.inj hw2]
    simp [pyInJson, setKey_any]
  · intro h1
    unfold extract at hw
    rw [h1] at hw
    constructor
    · intro h2
      rw [h2] at hw
      have hwe : w = fallbackJson raw := (Option.some.inj hw).symm
      subst hwe
      exact ⟨rfl, rfl⟩
    · intro v h2
      rw [h2] at hw
      exact (Option.some.inj hw).symm
  · intro hk
    rcases w with _ | b | n | s | xs | kvs
    · rfl
    · rfl
    · rfl
    · rfl
    · rfl
    · simp only [pyInJson, List.any_eq_false] at hk
      show (getKey kvs "summary_text").getD (Json.str "No summary provided.") =
        Json.str "No summary provided."
      rw [getKey_none_of_forall kvs _ (fun kv hkv => by simpa using hk kv hkv)]
      rfl

/-- C10 witness: a stage-2 payload recovered by the first pass carries
the reserved key. -/
theorem c10_witness :
    pyInJson "summary_text" (Json.obj [("breakdown", Json.num 42),
      ("summary_text", Json.str "No summary provided.")]) = true :=
  (c10_summary_key_provenance raw7.data (Json.obj [("breakdown", Json.num 42),
    ("summary_text", Json.str "No summary provided.")]) rfl).1 rfl

/-- C4 counterexample: for the spec's own scenario text the extractor does
recover the embedded object, but it returns it with the reserved
`summary_text` key attached (placeholder, as no separator occurs) — so the
payload is not exactly `{estimations: [], questions: []}`. -/
theorem c4_counterexample :
    extract (pre4.data ++ obj4.data ++ post4.data) = some (Json.obj
      [("estimations", Json.arr []), ("questions", Json.arr []),
        ("summary_text", Json.str "No summary provided.")]) ∧
    extract (pre4.data ++ obj4.data ++ post4.data) ≠ some (Json.obj
      [("estimations", Json.arr []), ("questions", Json.arr [])]) := by
  refine ⟨rfl, fun h => ?_⟩
  have h2 : (some (Json.obj [("estimations", Json.arr []), ("questions", Json.arr []),
      ("summary_text", Json.str "No summary provided.")]) : Option Json) =
      some (Json.obj [("estimations", Json.arr []), ("questions", Json.arr [])]) := by
    rw [← h]
    exact rfl
  have h3 := Option.some.inj h2
  injection h3 with h4
  simp at h4

/-- C4 (amended): for raw text that is a single parsable JSON object
surrounded by brace-free, separator-free prose or fencing, `extract`
recovers exactly that object's parse and attaches the reserved summary
key with the placeholder value. -/
theorem c4_embedded_object_recovered :
    ∀ (pre objStr post : List Char) (kvs : List (String × Json)),
    braceFree pre = true → braceFree post = true →
    findSub ['-', '-', '-'] (pre ++ objStr ++ post) = none →
    objStr.head? = some '{' → objStr.getLast? = some '}' →
    pyJsonLoads objStr = some (Json.obj kvs) →
    extract (pre ++ objStr ++ post) =
      some (Json.obj (setKey kvs "summary_text" (Json.str "No summary provided."))) := by
  intro pre objStr post kvs hpre hpost hsep hhead hlast hload
  obtain ⟨t, rfl⟩ : ∃ t, objStr = '{' :: t := by
    cases objStr with
    | nil => simp at hhead
    | cons a u =>
      simp at hhead
      exact ⟨u, by rw [hhead]⟩
  set s : List Char := pre ++ '{' :: t ++ post with hs
  have hsplit : splitOnce s = (s, none) := by
    unfold splitOnce
    rw [hsep]
  have hsum : summaryOf s = "No summary provided." := by
    unfold summaryOf
    rw [hsplit]
  have hpre1 : ∀ x ∈ pre, x ≠ '{' := fun x hx => ((braceFree_iff pre).mp hpre x hx).1
  have hfind : charFindAux '{' s = some pre.length := by
    rw [hs, List.append_assoc, charFindAux_append '{' pre _ hpre1]
    simp [charFindAux]
  have hpost1 : ∀ x ∈ post.reverse, x ≠ '}' :=
    fun x hx => ((braceFree_iff post).mp hpost x (by simpa using hx)).2
  obtain ⟨u, hu⟩ : ∃ u, ('{' :: t).reverse = '}' :: u := by
    have h1 : ('{' :: t).reverse.head? = some '}' := by
      rw [List.head?_reverse]
      exact hlast
    cases hjr : ('{' :: t).reverse with
    | nil => rw [hjr] at h1; simp at h1
    | cons a u =>
      rw [hjr] at h1
      simp at h1
      exact ⟨u, by rw [h1]⟩
  have hrfind : charFindAux '}' s.reverse = some post.length := by
    have hrev : s.reverse = post.reverse ++ (('{' :: t).reverse ++ pre.reverse) := by
      rw [hs]
      simp [List.reverse_append, List.append_assoc]
    rw [hrev, charFindAux_append '}' post.reverse _ hpost1, hu]
    simp [charFindAux]
  have hslen : s.length = pre.length + (t.length + 1) + post.length := by
    rw [hs]
    simp [List.length_append]
    omega
  have hcf : charFind '{' s = (pre.length : Int) := by
    simp [charFind, hfind]
  have hcr : charRfind '}' s = (s.length : Int) - 1 - post.length := by
    simp [charRfind, hrfind]
  have hclean : firstPassCleaned s = '{' :: t := by
    unfold firstPassCleaned
    rw [hsplit]
    show pySlice s (charFind '{' s) (charRfind '}' s + 1) = '{' :: t
    rw [hcf, hcr]
    have hstop : (s.length : Int) - 1 - post.length + 1 =
        ((pre.length + (t.length + 1) : Nat) : Int) := by
      rw [hslen]
      push_cast
      ring
    rw [hstop, pySlice_natcast s pre.length (pre.length + (t.length + 1))
      (by omega) (by omega)]
    rw [hs, List.append_assoc, List.drop_left]
    have harith : pre.length + (t.length + 1) - pre.length = t.length + 1 := by omega
    rw [harith, List.take_left' (by simp)]
  have hfl : firstPassLoads s = some (Json.obj kvs) := by
    unfold firstPassLoads
    rw [hclean]
    exact hload
  unfold extract
  rw [hfl, hsum]
  rfl

/-- C4 witness: the amended statement instantiated at the spec's
scenario text. -/
theorem c4_witness :
    extract (pre4.data ++ obj4.data ++ post4.data) = some (Json.obj
      (setKey [("estimations", Json.arr []), ("questions", Json.arr [])]
        "summary_text" (Json.str "No summary provided."))) :=
  c4_embedded_object_recovered pre4.data obj4.data post4.data
    [("estimations", Json.arr []), ("questions", Json.arr [])]
    (by decide) (by decide) (by decide) (by decide) (by decide) rfl
